import Mathlib

/-! Verification of the AnaFis-PyQt core against its specification.

This file shallowly embeds the parts of the repository that the checked
claims are about:

* the inter-tab Data Bus (`src/anafis/gui/shared/data_bus.py` together with
  the message utilities of `src/anafis/gui/shared/data_transforms.py`);
* the tab/window manipulation operations of
  `src/anafis/gui/shell/detachable_tab.py` (reorder, detach, cross-window
  drop);
* the session loading of `src/anafis/gui/shell/notebook.py`.

Python dictionaries are modelled as insertion-ordered association lists,
Python exceptions as explicit outcome values, and Qt signal emissions as an
event trace returned by each operation.
-/

set_option maxHeartbeats 1000000

namespace AnaFis

/-! Association lists: the embedding of Python `dict`

Python dicts preserve insertion order; assignment to an existing key keeps
its position, assignment to a fresh key appends, and `del` removes the
entry. -/

/-- Lookup, Python `m[k]` or `k in m`: first binding of `k`, if any. -/
def alookup {α : Type} : List (String × α) → String → Option α
  | [], _ => none
  | kv :: rest, k => if kv.1 = k then some kv.2 else alookup rest k

/-- Assignment of `v` at key `k`: replace in place when the key is present,
else append. -/
def alistInsert {α : Type} : List (String × α) → String → α → List (String × α)
  | [], k, v => [(k, v)]
  | kv :: rest, k, v => if kv.1 = k then (k, v) :: rest else kv :: alistInsert rest k v

/-- Deletion, Python `del` of key `k`. -/
def alistErase {α : Type} (m : List (String × α)) (k : String) : List (String × α) :=
  m.filter (fun kv => decide (kv.1 ≠ k))

/-! Messages (`data_transforms.py`) -/

/-- A `datetime` value; `datetime.now()` is passed to the bus operations as an
explicit parameter. -/
structure Timestamp where
  year : Nat
  month : Nat
  day : Nat
  hour : Nat
  minute : Nat
  second : Nat
  microsecond : Nat
deriving DecidableEq, Repr

/-- The payload union `TabData = Union[pd.DataFrame, Dict, List, str, float, int]`.
Only the outer shape matters to the embedded code (validation probes
`isinstance(data, dict)`); the non-dict arms are kept opaque. -/
inductive TabData
  | dict (entries : List (String × String))
  | frame (tag : String)
  | arr (items : List String)
  | str (s : String)
  | num (n : Int)
deriving DecidableEq, Repr

/-- Whether the payload is a Python dict, `isinstance(data, dict)`. -/
def TabData.isDict : TabData → Bool
  | .dict _ => true
  | _ => false

/-- A data-bus message: the dict built by `create_data_message`; all seven
keys are always present there, so the embedding uses a structure. -/
structure Message where
  source_tab_id : String
  source_tab_type : String
  data_type : String
  data : TabData
  metadata : List (String × String)
  timestamp : Timestamp
  version : String
deriving DecidableEq, Repr

/-- Embedding of `create_data_message` (`data_transforms.py:21`). The
 stored metadata is the given dict or, for `None`, an empty one — Python
`metadata or` an empty dict, where an empty dict is its own default. `now`
stands for the `datetime.now().isoformat()` value. -/
def create_data_message (source_tab_id source_tab_type data_type : String)
    (data : TabData) (metadata : Option (List (String × String)))
    (now : Timestamp) : Message :=
  { source_tab_id := source_tab_id
    source_tab_type := source_tab_type
    data_type := data_type
    data := data
    metadata := metadata.getD []
    timestamp := now
    version := "1.0" }

/-- Embedding of `validate_data_message` (`data_transforms.py:244`), on the domain of
messages built by `create_data_message`: there the six required keys are
always present, the three id/type fields are strings, and
`datetime.fromisoformat` succeeds on `datetime.isoformat` output, so of the
Python function's checks only the payload-shape `elif` chain can add an
error. -/
def validate_data_message (message : Message) : Bool × List String :=
  let errors : List String :=
    if message.data_type = "dataframe" ∧ ¬ message.data.isDict then
      ["DataFrame data must be a dictionary"]
    else if message.data_type = "numpy_array" ∧ ¬ message.data.isDict then
      ["NumPy array data must be a dictionary"]
    else if message.data_type = "parameters" ∧ ¬ message.data.isDict then
      ["Parameters data must be a dictionary"]
    else []
  (errors.isEmpty, errors)

/-! The Data Bus (`data_bus.py`) -/

/-- Outcome of invoking a subscriber callback on a message: it either
returns, or raises (the bus catches the exception). -/
inductive CbOutcome
  | ok
  | raise
deriving DecidableEq, Repr

/-- Outcome of evaluating a registered filter predicate on a message:
truthy, falsy, or raising. -/
inductive FilterOutcome
  | accept
  | block
  | raise
deriving DecidableEq, Repr

/-- Modelled from the spec: `TabRegistration` is imported by `data_bus.py`
from `anafis.core.data_structures`, but its definition is missing from the
source tree (only the import, the constructor call
`TabRegistration(tab_id, tab_type, callback)` and attribute reads appear).
Spec section 3 describes this Tab Handle record: `tabId`, `tabType`,
`callback` (optional sink), `isActive`, `messageCount` (monotonic counter),
`lastActivityTimestamp`, created on bus registration. A fresh registration
starts active with a zeroed counter and no recorded activity. -/
structure TabRegistration where
  tab_id : String
  tab_type : String
  callback : Option (Message → CbOutcome)
  is_active : Bool := true
  message_count : Nat := 0
  last_activity : Option Timestamp := none

/-- Observable signal emissions of the bus (`DataBusSignals`); each event
records the recipient/argument identities the claims talk about. -/
inductive Event
  | messageValidated (valid : Bool)
  | transmissionError (tab_id : String)
  | dataPublished
  | dataReceived (tab_id : String)
  | tabRegistered (tab_id tab_type : String)
  | tabUnregistered (tab_id : String)
deriving DecidableEq, Repr

/-- The mutable state of a `DataBus` object. -/
structure Bus where
  registered_tabs : List (String × TabRegistration) := []
  data_filters : List (String × (Message → FilterOutcome)) := []
  subscription_map : List (String × List String) := []
  max_message_history : Nat := 100
  enable_validation : Bool := true
  message_history : List Message := []
  is_active : Bool := true

/-- Embedding of `DataBus.__init__`: empty registries, capacity 100, validation on, and
activated by `_activate_bus`. -/
def DataBus.init : Bus := {}

/-- Embedding of `DataBus.register_tab` (`data_bus.py:100`). Returns the Python result
together with the new state and the emitted events. -/
def register_tab (bus : Bus) (tab_id tab_type : String)
    (callback : Option (Message → CbOutcome)) : Bool × Bus × List Event :=
  if ¬ bus.is_active then (false, bus, [])
  else
    let registration : TabRegistration :=
      { tab_id := tab_id, tab_type := tab_type, callback := callback }
    let regs := alistInsert bus.registered_tabs tab_id registration
    let subs :=
      if (alookup bus.subscription_map tab_id).isNone then
        alistInsert bus.subscription_map tab_id []
      else bus.subscription_map
    (true, { bus with registered_tabs := regs, subscription_map := subs },
      [.tabRegistered tab_id tab_type])

/-- Embedding of `DataBus.unregister_tab` (`data_bus.py:138`): drops the
handle, the whole subscription entry, and every filter whose id starts with
the tab id followed by an underscore. -/
def unregister_tab (bus : Bus) (tab_id : String) : Bool × Bus × List Event :=
  if (alookup bus.registered_tabs tab_id).isNone then (false, bus, [])
  else
    let regs := alistErase bus.registered_tabs tab_id
    let subs := alistErase bus.subscription_map tab_id
    let filters :=
      bus.data_filters.filter (fun kv => !(kv.1.startsWith (tab_id ++ "_")))
    (true,
      { bus with registered_tabs := regs, subscription_map := subs,
                 data_filters := filters },
      [.tabUnregistered tab_id])

/-- Embedding of `DataBus.subscribe_to_data_type` (`data_bus.py:170`). -/
def subscribe_to_data_type (bus : Bus) (tab_id data_type : String) :
    Bool × Bus :=
  if (alookup bus.registered_tabs tab_id).isNone then (false, bus)
  else
    let m :=
      if (alookup bus.subscription_map tab_id).isNone then
        alistInsert bus.subscription_map tab_id []
      else bus.subscription_map
    let subs := (alookup m tab_id).getD []
    if data_type ∈ subs then (false, { bus with subscription_map := m })
    else
      (true, { bus with subscription_map := alistInsert m tab_id (subs ++ [data_type]) })

/-- Embedding of `DataBus.add_data_filter` (`data_bus.py:222`). -/
def add_data_filter (bus : Bus) (filter_id : String)
    (filter_func : Message → FilterOutcome) : Bus :=
  { bus with data_filters := alistInsert bus.data_filters filter_id filter_func }

/-- Embedding of `DataBus.remove_data_filter` (`data_bus.py:233`). -/
def remove_data_filter (bus : Bus) (filter_id : String) : Bool × Bus :=
  if (alookup bus.data_filters filter_id).isSome then
    (true, { bus with data_filters := alistErase bus.data_filters filter_id })
  else (false, bus)

/-- The filter loop of `publish_data` (`data_bus.py:300`): a falsy result
returns `False` immediately; a raising filter is caught and logged, and the
loop continues. -/
def runFilters : List (String × (Message → FilterOutcome)) → Message → Bool
  | [], _ => true
  | (_, f) :: rest, m =>
    match f m with
    | .block => false
    | .accept => runFilters rest m
    | .raise => runFilters rest m

/-- One iteration of the routing loop of `DataBus._handle_data_published`
(`data_bus.py:326`): the source is skipped, then the subscription,
registration and activity checks, then the delivery attempt whose exception
is caught per recipient (emitting a `transmission_error` naming that
recipient instead of `data_received`). -/
def routeOne (regs : List (String × TabRegistration)) (message : Message)
    (tab_id : String) (subscriptions : List String) : List Event :=
  if tab_id = message.source_tab_id then []
  else if message.data_type ∉ subscriptions then []
  else
    match alookup regs tab_id with
    | none => []
    | some reg =>
      if ¬ reg.is_active then []
      else
        match reg.callback with
        | some cb =>
          match cb message with
          | .ok => [.dataReceived tab_id]
          | .raise => [.transmissionError tab_id]
        | none => [.dataReceived tab_id]

/-- The routing loop, iterating `subscription_map.items()` in insertion
order. -/
def routeEntries (regs : List (String × TabRegistration))
    (message : Message) :
    List (String × List String) → List Event
  | [] => []
  | (tab_id, subscriptions) :: rest =>
    routeOne regs message tab_id subscriptions ++ routeEntries regs message rest

/-- Embedding of `DataBus._handle_data_published`, reading the bus state current at the
`data_published` emission. -/
def route (bus : Bus) (message : Message) : List Event :=
  routeEntries bus.registered_tabs message bus.subscription_map

/-- Result of a `publish_data` call: returned boolean, post state, events. -/
structure PubOut where
  ok : Bool
  bus : Bus
  events : List Event

/-- Embedding of `DataBus.publish_data` (`data_bus.py:249`). The `data_published`
emission runs `_handle_data_published` synchronously before the `True`
return, so its delivery events are part of the call's trace. For
`max_message_history ≥ 1` the `pop(0)` branch only runs on a nonempty
history, where it is `List.tail`. -/
def publish_data (bus : Bus) (source_tab_id data_type : String)
    (data : TabData) (metadata : Option (List (String × String)))
    (now : Timestamp) : PubOut :=
  if ¬ bus.is_active then ⟨false, bus, []⟩
  else
    match alookup bus.registered_tabs source_tab_id with
    | none => ⟨false, bus, []⟩
    | some source_tab =>
      let message :=
        create_data_message source_tab_id source_tab.tab_type data_type data
          metadata now
      let valEvents : List Event :=
        if bus.enable_validation then
          [.messageValidated (validate_data_message message).1]
        else []
      if bus.enable_validation ∧ (validate_data_message message).1 = false then
        ⟨false, bus, valEvents ++ [.transmissionError source_tab_id]⟩
      else if runFilters bus.data_filters message = false then
        ⟨false, bus, valEvents⟩
      else
        let updated : TabRegistration :=
          { source_tab with message_count := source_tab.message_count + 1,
                            last_activity := some message.timestamp }
        let hist :=
          (if bus.message_history.length ≥ bus.max_message_history then
            bus.message_history.tail
          else bus.message_history) ++ [message]
        let bus' :=
          { bus with
              registered_tabs := alistInsert bus.registered_tabs source_tab_id updated,
              message_history := hist }
        ⟨true, bus', valEvents ++ [.dataPublished] ++ route bus' message⟩

/-- Per-tab information returned by `DataBus.get_registered_tabs`
(`data_bus.py:372`). -/
structure RegInfo where
  tab_type : String
  is_active : Bool
  message_count : Nat
  last_activity : Option Timestamp
  subscriptions : List String

/-- Embedding of `DataBus.get_registered_tabs`. -/
def get_registered_tabs (bus : Bus) : List (String × RegInfo) :=
  bus.registered_tabs.map (fun kv =>
    (kv.1,
      { tab_type := kv.2.tab_type
        is_active := kv.2.is_active
        message_count := kv.2.message_count
        last_activity := kv.2.last_activity
        subscriptions := (alookup bus.subscription_map kv.1).getD [] }))

/-- Embedding of `DataBus.get_message_history` (`data_bus.py:390`): Python's
`history[-limit:]` is the whole list when `limit = 0`, else the last
`limit` entries. -/
def get_message_history (bus : Bus) (limit : Option Nat) : List Message :=
  match limit with
  | none => bus.message_history
  | some l =>
    if l = 0 then bus.message_history
    else bus.message_history.drop (bus.message_history.length - l)

/-- Whether attempting delivery to this handle would raise
(`tab_registration.callback(message)` throwing inside the per-recipient
`try`). A missing callback never raises. -/
def cbThrows (reg : TabRegistration) (m : Message) : Bool :=
  match reg.callback with
  | some cb => match cb m with | .raise => true | .ok => false
  | none => false

/-- The recipient a routing event is about, if any. -/
def touchedId : Event → Option String
  | .dataReceived i => some i
  | .transmissionError i => some i
  | _ => none

/-- Whether the routing loop reaches the delivery attempt for a
subscription entry: not the source, subscribed to the message's data type,
still registered, and active. -/
def visits (regs : List (String × TabRegistration)) (message : Message)
    (kv : String × List String) : Bool :=
  decide (kv.1 ≠ message.source_tab_id) &&
    decide (message.data_type ∈ kv.2) &&
    (match alookup regs kv.1 with
     | some reg => reg.is_active
     | none => false)

/-- The arguments of one `publish_data` call. -/
structure PubReq where
  source_tab_id : String
  data_type : String
  data : TabData
  metadata : Option (List (String × String))
  now : Timestamp

/-- Perform one request. -/
def publishStep (bus : Bus) (r : PubReq) : PubOut :=
  publish_data bus r.source_tab_id r.data_type r.data r.metadata r.now

/-- State after a sequence of `publish_data` calls. -/
def publishRun (bus : Bus) : List PubReq → Bus
  | [] => bus
  | r :: rest => publishRun (publishStep bus r).bus rest

/-- The returned booleans of a sequence of `publish_data` calls. -/
def publishOks : Bus → List PubReq → List Bool
  | _, [] => []
  | bus, r :: rest =>
    (publishStep bus r).ok :: publishOks (publishStep bus r).bus rest

/-- The messages the successful calls of a run append to the history, in
publish order. -/
def publishedMsgs : Bus → List PubReq → List Message
  | _, [] => []
  | bus, r :: rest =>
    (if (publishStep bus r).ok then
      match alookup bus.registered_tabs r.source_tab_id with
      | some reg =>
        [create_data_message r.source_tab_id reg.tab_type r.data_type
          r.data r.metadata r.now]
      | none => []
    else []) ++ publishedMsgs (publishStep bus r).bus rest

/-! The window/tab hierarchy (`detachable_tab.py`)

Tabs are identified by naturals; `homeTab` is the Home tab of the main
window. A `Shell` is the main window's tab strip plus the strip of every
detached window, in creation order. -/

abbrev Tab := Nat

/-- The Home tab inserted at index 0 of the main window
(`Notebook.insert_home_tab`). -/
def homeTab : Tab := 0

/-- Qt tab insertion, `QTabWidget.insertTab`: the index is clamped into the
valid range. -/
def qtInsertTab (ts : List Tab) (i : Nat) (t : Tab) : List Tab :=
  ts.take (min i ts.length) ++ t :: ts.drop (min i ts.length)

/-- The tab strips of all windows: the main window plus each detached
window's internal `DetachableTabWidget`. -/
structure Shell where
  main : List Tab
  detached : List (List Tab)
deriving DecidableEq, Repr

/-- Reference to one tab strip. -/
inductive StripRef
  | main
  | win (k : Nat)
deriving DecidableEq, Repr

def Shell.strip (s : Shell) : StripRef → Option (List Tab)
  | .main => some s.main
  | .win k => s.detached.get? k

def Shell.setStrip (s : Shell) : StripRef → List Tab → Shell
  | .main, ts => { s with main := ts }
  | .win k, ts => { s with detached := s.detached.set k ts }

/-- Embedding of `DetachableTabWidget.reorder_tabs` (`detachable_tab.py:728`): no-op when
source equals target or either index is 0; otherwise the tab is removed and
reinserted, decrementing the target index when it lay past the source.
`self.widget(from_index)` is `None` out of range, which also no-ops. -/
def reorder_tabs (ts : List Tab) (from_index to_index : Nat) : List Tab :=
  if from_index = to_index ∨ from_index = 0 ∨ to_index = 0 then ts
  else
    match ts.get? from_index with
    | none => ts
    | some w =>
      let rest := ts.eraseIdx from_index
      let target := if to_index > from_index then to_index - 1 else to_index
      qtInsertTab rest target w

/-- Embedding of `DetachableTabWidget.detach_tab_at_position` (`detachable_tab.py:705`):
refuses the only tab and index 0; otherwise removes the tab, returning the
shrunk strip and the detached widget destined for a fresh window. -/
def detach_split (ts : List Tab) (index : Nat) : List Tab × Option Tab :=
  if ts.length ≤ 1 ∨ index = 0 then (ts, none)
  else
    match ts.get? index with
    | none => (ts, none)
    | some w => (ts.eraseIdx index, some w)

/-- One user-level operation on the window hierarchy. -/
inductive TabOp
  /-- A call of `reorder_tabs` on the given strip. -/
  | reorder (strip : StripRef) (from_index to_index : Nat)
  /-- A call of `detach_tab_at_position` on the given strip: the removed tab becomes a
  new detached window. -/
  | detach (strip : StripRef) (index : Nat)
  /-- A cross-window drop, `_complete_external_drag_drop`
  (`detachable_tab.py:651`) running on the target strip: `toTabBar` selects
  the `DropZone.TAB_BAR` branch with `insert_index` from
  `_calculate_insertion_index`; otherwise a new detached window is created
  and an emptied detached source window is closed. -/
  | crossDrop (src : StripRef) (src_index : Nat) (tgt : StripRef)
      (toTabBar : Bool) (insert_index : Nat)
deriving Repr

/-- Apply one operation. For `crossDrop`, a `DragOperation` can only exist
with `source_tab_index ≠ 0` (`EnhancedTabBar.mousePressEvent` refuses index
0) and only non-source widgets are put in external-drag mode
(`GlobalDragManager.register_drag`), so drops with `src_index = 0` or
`src = tgt` are unreachable and modelled as no-ops. -/
def applyOp (s : Shell) : TabOp → Shell
  | .reorder r f t =>
    match s.strip r with
    | none => s
    | some ts => s.setStrip r (reorder_tabs ts f t)
  | .detach r i =>
    match s.strip r with
    | none => s
    | some ts =>
      let p := detach_split ts i
      match p.2 with
      | none => s
      | some w =>
        let s' := s.setStrip r p.1
        { s' with detached := s'.detached ++ [[w]] }
  | .crossDrop src si tgt toTabBar ins =>
    if si = 0 ∨ src = tgt then s
    else
      match s.strip src, s.strip tgt with
      | some sts, some tts =>
        match sts.get? si with
        | none => s
        | some w =>
          let s1 := s.setStrip src (sts.eraseIdx si)
          if toTabBar then s1.setStrip tgt (qtInsertTab tts ins w)
          else
            let s2 := { s1 with detached := s1.detached ++ [[w]] }
            match src with
            | .main => s2
            | .win k =>
              if (sts.eraseIdx si).isEmpty then
                { s2 with detached := s2.detached.eraseIdx k }
              else s2
      | _, _ => s

/-- Run a sequence of operations, first to last. -/
def runOps (s : Shell) : List TabOp → Shell
  | [] => s
  | op :: rest => runOps (applyOp s op) rest

/-- The Home-tab invariant: Home is the first main-window tab, occurs
nowhere else in the main window, and is in no detached window. -/
def HomeInv (s : Shell) : Prop :=
  s.main.head? = some homeTab ∧ homeTab ∉ s.main.tail ∧
    ∀ w ∈ s.detached, homeTab ∉ w

instance (s : Shell) : Decidable (HomeInv s) := by
  unfold HomeInv; infer_instance

def TabOp.isCrossDrop : TabOp → Bool
  | .crossDrop .. => true
  | _ => false

/-! Session loading (`notebook.py`)

The notebook's main tab strip is modelled as the list of its tabs: the Home
tab plus the widgets built by `Notebook.create_tab_from_state`, identified
by the originating state (that function always returns a truthy widget,
falling back to a `QLabel` for unknown types). -/

/-- A persisted tab state: the loader only reads the `type`, `tab_id` and
`tab_name` keys, each possibly absent. -/
structure TabState where
  type : Option String
  tab_id : Option String
  tab_name : Option String
deriving DecidableEq, Repr

/-- A tab of the main window after loading. -/
inductive NTab
  | home
  | created (state : TabState)
deriving DecidableEq, Repr

/-- The parsed JSON content of `complete_session.json`, as far as
`load_session` inspects it: either a bare array of tab states (the legacy
shape) or a top-level object. For an object, `keys` is its insertion-ordered
key list (what Python iteration over the dict yields), `version` the value
at `"version"` if present, and `main_window_tabs` the tab states under
`main_window.tabs`. -/
inductive SessionJson
  | arr (tabs : List TabState)
  | obj (keys : List String) (version : Option String)
      (main_window_tabs : List TabState)
deriving Repr

/-- Embedding of `SessionManager._load_legacy_session` (`notebook.py:254`) applied to
what its signature declares, a list of tab state dicts: clears every main
tab past index 0, then appends a tab for every entry whose `type` is not
`"home"` (an absent `type` compares unequal to `"home"` and is loaded). -/
def load_legacy_session_list (mainTabs : List NTab)
    (session_data : List TabState) : Bool × List NTab :=
  let cleared := mainTabs.take 1
  (true,
    cleared ++
      (session_data.filter (fun ts => decide (ts.type ≠ some "home"))).map NTab.created)

/-- Embedding of `SessionManager.load_session` (`notebook.py:68`) after the file has been
read and parsed, returning the Python result and the main window's tabs.

* Bare array: `session_data.get("version", "1.0")` is an attribute access
  on a Python `list`, raising `AttributeError`; the enclosing handler
  catches it and returns `False` with the notebook untouched — the legacy
  loader is never reached.
* Object with mismatching (or defaulted `"1.0"`) version:
  `_load_legacy_session` receives the whole session dict; it clears the
  non-Home main tabs, then iterates the dict, which yields its keys, and
  `key.get("type")` on a `str` raises `AttributeError`, caught by the
  loader's own handler (`False`); an empty dict skips the loop (`True`).
* Matching version: `_clear_current_session` keeps only the Home tab, then
  `_restore_main_window` appends a tab for every non-`"home"` entry (each
  in its own try block that cannot fail in this model). Detached-window
  restoration touches no main-window tab and is outside the modelled state.
-/
def load_session (appVersion : String) (mainTabs : List NTab)
    (content : SessionJson) : Bool × List NTab :=
  match content with
  | .arr _ => (false, mainTabs)
  | .obj keys version mwTabs =>
    if version.getD "1.0" ≠ appVersion then
      let cleared := mainTabs.take 1
      if keys.isEmpty then (true, cleared) else (false, cleared)
    else
      let cleared := mainTabs.take 1
      (true,
        cleared ++
          (mwTabs.filter (fun ts => decide (ts.type ≠ some "home"))).map NTab.created)

/-! Concrete instances used to exercise the definitions -/

def ts0 : Timestamp := ⟨2024, 1, 1, 0, 0, 0, 0⟩

def ts1 : Timestamp := ⟨2024, 1, 1, 0, 0, 1, 0⟩

def ts2 : Timestamp := ⟨2024, 1, 1, 0, 0, 2, 0⟩

/-- A callback that accepts every message. -/
def cbAccepts : Message → CbOutcome := fun _ => .ok

/-- A filter predicate returning `True` on every message. -/
def filterAccepts : Message → FilterOutcome := fun _ => .accept

/-- A filter predicate returning `False` on every message. -/
def filterBlocks : Message → FilterOutcome := fun _ => .block

/-- A filter predicate raising on every message. -/
def filterRaises : Message → FilterOutcome := fun _ => .raise

/-- A bus with publisher `"a"` and subscriber `"b"` (subscribed to `"t"`,
with an accepting callback), built through the public registration API. -/
def busAB : Bus :=
  let b1 := (register_tab DataBus.init "a" "spreadsheet" none).2.1
  let b2 := (register_tab b1 "b" "fitting" (some cbAccepts)).2.1
  (subscribe_to_data_type b2 "b" "t").2

/-- The bus `busAB` with an always-false filter installed. -/
def busVeto : Bus := add_data_filter busAB "f1" filterBlocks

/-- The bus `busAB` with a raising filter between two accepting ones. -/
def busRaisy : Bus :=
  add_data_filter
    (add_data_filter (add_data_filter busAB "ok1" filterAccepts) "boom" filterRaises)
    "ok2" filterAccepts

/-- The bus `busAB` with a filter namespaced to tab `"a"` and an unrelated one. -/
def busNamespaced : Bus :=
  add_data_filter (add_data_filter busAB "a_only" filterAccepts) "keep" filterAccepts

/-- A lone registered publisher with history capacity 2. -/
def busHist : Bus :=
  { (register_tab DataBus.init "a" "spreadsheet" none).2.1 with
      max_message_history := 2 }

/-- Three successful publish requests for `busHist`. -/
def reqsHist : List PubReq :=
  [⟨"a", "t", .str "one", none, ts0⟩,
   ⟨"a", "t", .str "two", none, ts1⟩,
   ⟨"a", "t", .str "three", none, ts2⟩]

/-- Main window `[Home, 1, 2]`, no detached windows. -/
def exShell : Shell := ⟨[0, 1, 2], []⟩

/-- Detach tab 1, drop tab 2 onto the detached window's tab bar, then drop
it back onto the main window's tab bar at insertion index 0 (the pointer
left of the Home tab's centre). -/
def exOps : List TabOp :=
  [.detach .main 1,
   .crossDrop .main 1 (.win 0) true 1,
   .crossDrop (.win 0) 1 .main true 0]

/-- A cross-drop-free sequence: a detach and a reorder. -/
def exOpsSafe : List TabOp :=
  [.detach .main 1, .reorder .main 1 2]

/-- A legacy session entry. -/
def legacyEntry : TabState := ⟨some "spreadsheet", some "s1", some "Sheet 1"⟩

/-! Lemmas about the association-list embedding of `dict` -/

theorem alookup_insert_self {α : Type} (m : List (String × α)) (k : String) (v : α) :
    alookup (alistInsert m k v) k = some v := by
  induction m with
  | nil => simp [alistInsert, alookup]
  | cons kv rest ih =>
    by_cases h : kv.1 = k
    · simp [alistInsert, h, alookup]
    · simp [alistInsert, h, alookup, ih]

theorem alookup_insert_ne {α : Type} (m : List (String × α)) (k k' : String) (v : α)
    (h : k' ≠ k) : alookup (alistInsert m k v) k' = alookup m k' := by
  induction m with
  | nil => simp [alistInsert, alookup, Ne.symm h]
  | cons kv rest ih =>
    by_cases hk : kv.1 = k
    · simp [alistInsert, hk, alookup, Ne.symm h]
    · simp [alistInsert, hk, alookup, ih]

theorem alookup_eq_none_of_forall {α : Type} (m : List (String × α)) (k : String)
    (h : ∀ kv ∈ m, kv.1 ≠ k) : alookup m k = none := by
  induction m with
  | nil => rfl
  | cons kv rest ih =>
    have h1 : kv.1 ≠ k := h kv (List.mem_cons_self kv rest)
    simp only [alookup, if_neg h1]
    exact ih (fun kv' hkv' => h kv' (List.mem_cons_of_mem _ hkv'))

theorem mem_alistErase_ne {α : Type} {m : List (String × α)} {k : String}
    {kv : String × α} (h : kv ∈ alistErase m k) : kv.1 ≠ k := by
  have := (List.mem_filter.mp h).2
  simpa using this

theorem alookup_erase_self {α : Type} (m : List (String × α)) (k : String) :
    alookup (alistErase m k) k = none :=
  alookup_eq_none_of_forall _ _ (fun _ hkv => mem_alistErase_ne hkv)

/-! Control-flow characterization of `publish_data` -/

theorem publish_data_inactive (bus : Bus) (sid dt : String) (d : TabData)
    (md : Option (List (String × String))) (now : Timestamp)
    (h : bus.is_active = false) :
    publish_data bus sid dt d md now = ⟨false, bus, []⟩ := by
  simp [publish_data, h]

theorem publish_data_unregistered (bus : Bus) (sid dt : String) (d : TabData)
    (md : Option (List (String × String))) (now : Timestamp)
    (hreg : alookup bus.registered_tabs sid = none) :
    publish_data bus sid dt d md now = ⟨false, bus, []⟩ := by
  by_cases hact : bus.is_active
  · simp [publish_data, hact, hreg]
  · simp [publish_data, hact]

theorem publish_data_invalid (bus : Bus) (sid dt : String) (d : TabData)
    (md : Option (List (String × String))) (now : Timestamp)
    (reg : TabRegistration)
    (hact : bus.is_active = true)
    (hreg : alookup bus.registered_tabs sid = some reg)
    (hen : bus.enable_validation = true)
    (hval : (validate_data_message
      (create_data_message sid reg.tab_type dt d md now)).1 = false) :
    publish_data bus sid dt d md now =
      ⟨false, bus, [.messageValidated false, .transmissionError sid]⟩ := by
  simp [publish_data, hact, hreg, hen, hval]

theorem publish_data_vetoed (bus : Bus) (sid dt : String) (d : TabData)
    (md : Option (List (String × String))) (now : Timestamp)
    (reg : TabRegistration)
    (hact : bus.is_active = true)
    (hreg : alookup bus.registered_tabs sid = some reg)
    (hval : ¬ (bus.enable_validation = true ∧ (validate_data_message
      (create_data_message sid reg.tab_type dt d md now)).1 = false))
    (hfil : runFilters bus.data_filters
      (create_data_message sid reg.tab_type dt d md now) = false) :
    publish_data bus sid dt d md now =
      ⟨false, bus,
        if bus.enable_validation then
          [.messageValidated (validate_data_message
            (create_data_message sid reg.tab_type dt d md now)).1]
        else []⟩ := by
  simp only [publish_data, hact, hreg]
  rw [if_neg (by simp [hact])]
  rw [if_neg (by simpa using hval), if_pos hfil]

theorem publish_data_success (bus : Bus) (sid dt : String) (d : TabData)
    (md : Option (List (String × String))) (now : Timestamp)
    (reg : TabRegistration)
    (hact : bus.is_active = true)
    (hreg : alookup bus.registered_tabs sid = some reg)
    (hval : ¬ (bus.enable_validation = true ∧ (validate_data_message
      (create_data_message sid reg.tab_type dt d md now)).1 = false))
    (hfil : runFilters bus.data_filters
      (create_data_message sid reg.tab_type dt d md now) = true) :
    publish_data bus sid dt d md now =
      (let message := create_data_message sid reg.tab_type dt d md now
      let bus' : Bus :=
        { bus with
            registered_tabs := alistInsert bus.registered_tabs sid
              { reg with message_count := reg.message_count + 1,
                         last_activity := some message.timestamp }
            message_history :=
              (if bus.message_history.length ≥ bus.max_message_history then
                bus.message_history.tail
              else bus.message_history) ++ [message] }
      ⟨true, bus',
        (if bus.enable_validation then
          [.messageValidated (validate_data_message message).1]
        else []) ++ [.dataPublished] ++ route bus' message⟩) := by
  simp only [publish_data, hact, hreg]
  rw [if_neg (by simp [hact])]
  rw [if_neg (by simpa using hval), if_neg (by simp [hfil])]

/-! C8: idempotence of `subscribe_to_data_type` -/

/-- C8: For every registered tab id and every data type T,
`subscribe_to_data_type` is idempotent: the first call returns true and adds
T to the tab's subscription set (so that T appears exactly once); a second
call with the same arguments returns false and leaves the bus unchanged.
For every unregistered tab id it returns false and changes nothing. -/
theorem subscribe_idempotent (bus : Bus) (tab_id data_type : String) :
    (∀ reg, alookup bus.registered_tabs tab_id = some reg →
      (data_type ∉ (alookup bus.subscription_map tab_id).getD [] →
        (subscribe_to_data_type bus tab_id data_type).1 = true ∧
        alookup (subscribe_to_data_type bus tab_id data_type).2.subscription_map tab_id =
          some ((alookup bus.subscription_map tab_id).getD [] ++ [data_type]) ∧
        ((alookup bus.subscription_map tab_id).getD [] ++ [data_type]).count data_type = 1 ∧
        subscribe_to_data_type (subscribe_to_data_type bus tab_id data_type).2 tab_id data_type =
          (false, (subscribe_to_data_type bus tab_id data_type).2)) ∧
      (data_type ∈ (alookup bus.subscription_map tab_id).getD [] →
        subscribe_to_data_type bus tab_id data_type = (false, bus))) ∧
    (alookup bus.registered_tabs tab_id = none →
      subscribe_to_data_type bus tab_id data_type = (false, bus)) := by
  constructor
  · intro reg hreg
    constructor
    · intro hnot
      cases hsub : alookup bus.subscription_map tab_id with
      | none =>
        have h1 : subscribe_to_data_type bus tab_id data_type =
            (true,
              { bus with
                  subscription_map :=
                    alistInsert (alistInsert bus.subscription_map tab_id [])
                      tab_id [data_type] }) := by
          simp [subscribe_to_data_type, hreg, hsub, alookup_insert_self]
        refine ⟨by rw [h1], ?_, ?_, ?_⟩
        · rw [h1]
          simpa using alookup_insert_self _ tab_id [data_type]
        · simp
        · rw [h1]
          have hl : alookup (alistInsert (alistInsert bus.subscription_map tab_id [])
              tab_id [data_type]) tab_id = some [data_type] :=
            alookup_insert_self _ _ _
          simp [subscribe_to_data_type, hreg, hl]
      | some subs =>
        have hnot' : data_type ∉ subs := by simpa [hsub] using hnot
        have h1 : subscribe_to_data_type bus tab_id data_type =
            (true,
              { bus with
                  subscription_map :=
                    alistInsert bus.subscription_map tab_id (subs ++ [data_type]) }) := by
          simp [subscribe_to_data_type, hreg, hsub, hnot']
        refine ⟨by rw [h1], ?_, ?_, ?_⟩
        · rw [h1]
          simpa using alookup_insert_self _ tab_id (subs ++ [data_type])
        · simp [List.count_append, List.count_eq_zero_of_not_mem hnot']
        · rw [h1]
          have hl : alookup (alistInsert bus.subscription_map tab_id (subs ++ [data_type]))
              tab_id = some (subs ++ [data_type]) := alookup_insert_self _ _ _
          simp [subscribe_to_data_type, hreg, hl]
    · intro hmem
      cases hsub : alookup bus.subscription_map tab_id with
      | none => simp [hsub] at hmem
      | some subs =>
        have hmem' : data_type ∈ subs := by simpa [hsub] using hmem
        simp [subscribe_to_data_type, hreg, hsub, hmem']
  · intro hnone
    simp [subscribe_to_data_type, hnone]

/-- Witness for C8 at `busAB`, tab `"b"`, data type `"u"`. -/
theorem subscribe_idempotent_witness :
    (subscribe_to_data_type busAB "b" "u").1 = true ∧
    subscribe_to_data_type (subscribe_to_data_type busAB "b" "u").2 "b" "u" =
      (false, (subscribe_to_data_type busAB "b" "u").2) := by
  have h := (subscribe_idempotent busAB "b" "u").1
    { tab_id := "b", tab_type := "fitting", callback := some cbAccepts } rfl
  have h2 := h.1 (by decide)
  exact ⟨h2.1, h2.2.2.2⟩

/-! C10: re-registration overwrites the handle, keeps subscriptions -/

/-- C10: Calling `register_tab` on an active bus for an id that is
already registered returns true and replaces the handle with a fresh one
(zero `message_count`, reset `last_activity`, active), while the tab's
existing subscription entry — and every other tab's handle, the filters and
the history — are unchanged. -/
theorem reregister_overwrites (bus : Bus) (tab_id tab_type : String)
    (callback : Option (Message → CbOutcome)) (oldReg : TabRegistration)
    (hact : bus.is_active = true)
    (hreg : alookup bus.registered_tabs tab_id = some oldReg)
    (hsub : (alookup bus.subscription_map tab_id).isSome) :
    (register_tab bus tab_id tab_type callback).1 = true ∧
    alookup (register_tab bus tab_id tab_type callback).2.1.registered_tabs tab_id =
      some { tab_id := tab_id, tab_type := tab_type, callback := callback,
             is_active := true, message_count := 0, last_activity := none } ∧
    (register_tab bus tab_id tab_type callback).2.1.subscription_map =
      bus.subscription_map ∧
    (∀ other, other ≠ tab_id →
      alookup (register_tab bus tab_id tab_type callback).2.1.registered_tabs other =
        alookup bus.registered_tabs other) ∧
    (register_tab bus tab_id tab_type callback).2.1.data_filters = bus.data_filters ∧
    (register_tab bus tab_id tab_type callback).2.1.message_history =
      bus.message_history ∧
    (register_tab bus tab_id tab_type callback).2.2 =
      [Event.tabRegistered tab_id tab_type] := by
  have hn : (alookup bus.subscription_map tab_id).isNone = false := by
    cases hx : alookup bus.subscription_map tab_id with
    | none => rw [hx] at hsub; simp at hsub
    | some v => simp
  have hr : register_tab bus tab_id tab_type callback =
      (true,
        { bus with
            registered_tabs :=
              alistInsert bus.registered_tabs tab_id
                { tab_id := tab_id, tab_type := tab_type, callback := callback } },
        [Event.tabRegistered tab_id tab_type]) := by
    simp [register_tab, hact, hn]
  refine ⟨by rw [hr], ?_, by rw [hr], ?_, by rw [hr], by rw [hr], by rw [hr]⟩
  · rw [hr]
    exact alookup_insert_self _ _ _
  · intro other hne
    rw [hr]
    exact alookup_insert_ne _ _ _ _ hne

/-- Witness for C10: re-registering tab `"a"` of `busAB` as a solver tab. -/
theorem reregister_overwrites_witness :
    (register_tab busAB "a" "solver" none).1 = true ∧
    (register_tab busAB "a" "solver" none).2.1.subscription_map =
      busAB.subscription_map := by
  have h := reregister_overwrites busAB "a" "solver" none
    { tab_id := "a", tab_type := "spreadsheet", callback := none } rfl rfl rfl
  exact ⟨h.1, h.2.2.1⟩

/-! C7: `unregister_tab` cleanup -/

/-- C7: For every registered tab id x, `unregister_tab x` returns true,
removes x's handle and whole subscription entry, and removes exactly the
filters namespaced to x (prefixed with `x` then an underscore), keeping all
the others; afterwards every `publish_data` from x returns false and
`get_registered_tabs` has no entry for x. For an unregistered id it returns
false and changes nothing. -/
theorem unregister_cleanup (bus : Bus) (x : String) :
    (∀ reg, alookup bus.registered_tabs x = some reg →
      (unregister_tab bus x).1 = true ∧
      alookup (unregister_tab bus x).2.1.registered_tabs x = none ∧
      alookup (unregister_tab bus x).2.1.subscription_map x = none ∧
      (∀ kv ∈ (unregister_tab bus x).2.1.data_filters,
        kv.1.startsWith (x ++ "_") = false) ∧
      (∀ kv ∈ bus.data_filters, kv.1.startsWith (x ++ "_") = false →
        kv ∈ (unregister_tab bus x).2.1.data_filters) ∧
      (∀ dt d md now,
        (publish_data (unregister_tab bus x).2.1 x dt d md now).ok = false) ∧
      (∀ kv ∈ get_registered_tabs (unregister_tab bus x).2.1, kv.1 ≠ x)) ∧
    (alookup bus.registered_tabs x = none →
      unregister_tab bus x = (false, bus, [])) := by
  constructor
  · intro reg hreg
    have hn : (alookup bus.registered_tabs x).isNone = false := by rw [hreg]; rfl
    have hu : unregister_tab bus x =
        (true,
          { bus with
              registered_tabs := alistErase bus.registered_tabs x,
              subscription_map := alistErase bus.subscription_map x,
              data_filters :=
                bus.data_filters.filter (fun kv => !(kv.1.startsWith (x ++ "_"))) },
          [.tabUnregistered x]) := by
      simp [unregister_tab, hn]
    refine ⟨by rw [hu], ?_, ?_, ?_, ?_, ?_, ?_⟩
    · rw [hu]; exact alookup_erase_self _ _
    · rw [hu]; exact alookup_erase_self _ _
    · rw [hu]
      intro kv hkv
      have := (List.mem_filter.mp hkv).2
      simpa using this
    · rw [hu]
      intro kv hkv hsw
      exact List.mem_filter.mpr ⟨hkv, by simp [hsw]⟩
    · intro dt d md now
      rw [hu]
      rw [publish_data_unregistered _ _ _ _ _ _ (alookup_erase_self _ _)]
    · rw [hu]
      intro kv hkv
      obtain ⟨orig, horig, rfl⟩ := List.mem_map.mp hkv
      have horig' : orig ∈ alistErase bus.registered_tabs x := horig
      show orig.1 ≠ x
      exact mem_alistErase_ne horig'
  · intro hnone
    have hn : (alookup bus.registered_tabs x).isNone = true := by rw [hnone]; rfl
    simp [unregister_tab, hn]

/-- Witness for C7: unregistering `"a"` from `busNamespaced`, and a missing
id. -/
theorem unregister_cleanup_witness :
    (unregister_tab busNamespaced "a").1 = true ∧
    (∀ dt d md now,
      (publish_data (unregister_tab busNamespaced "a").2.1 "a" dt d md now).ok = false) ∧
    unregister_tab busNamespaced "ghost" = (false, busNamespaced, []) := by
  have h1 := (unregister_cleanup busNamespaced "a").1
    { tab_id := "a", tab_type := "spreadsheet", callback := none } rfl
  have h2 := (unregister_cleanup busNamespaced "ghost").2 rfl
  exact ⟨h1.1, h1.2.2.2.2.2.1, h2⟩

/-! C5: validation failure rejects the publish and changes nothing -/

/-- C5: On an active bus with a registered source, if structural
validation of the built message fails then `publish_data` returns false,
emits a `transmission_error` naming the source tab, leaves the bus state
unchanged, and delivers to nobody. -/
theorem validation_failure_rejects (bus : Bus) (sid dt : String) (d : TabData)
    (md : Option (List (String × String))) (now : Timestamp)
    (reg : TabRegistration)
    (hact : bus.is_active = true)
    (hreg : alookup bus.registered_tabs sid = some reg)
    (hen : bus.enable_validation = true)
    (hval : (validate_data_message
      (create_data_message sid reg.tab_type dt d md now)).1 = false) :
    (publish_data bus sid dt d md now).ok = false ∧
    (publish_data bus sid dt d md now).bus = bus ∧
    Event.transmissionError sid ∈ (publish_data bus sid dt d md now).events ∧
    ∀ i, Event.dataReceived i ∉ (publish_data bus sid dt d md now).events := by
  have h := publish_data_invalid bus sid dt d md now reg hact hreg hen hval
  rw [h]
  refine ⟨rfl, rfl, by simp, fun i => by simp⟩

/-- Witness for C5: publishing a string payload under the `"dataframe"` data
type fails validation on `busAB`. -/
theorem validation_failure_rejects_witness :
    (publish_data busAB "a" "dataframe" (TabData.str "no") none ts0).ok = false ∧
    (publish_data busAB "a" "dataframe" (TabData.str "no") none ts0).bus = busAB ∧
    Event.transmissionError "a" ∈
      (publish_data busAB "a" "dataframe" (TabData.str "no") none ts0).events := by
  have h := validation_failure_rejects busAB "a" "dataframe" (TabData.str "no") none ts0
    { tab_id := "a", tab_type := "spreadsheet", callback := none } rfl rfl rfl rfl
  exact ⟨h.1, h.2.1, h.2.2.1⟩

/-! C4: a vetoing filter fails the publish and changes nothing -/

/-- If some registered filter evaluates to falsy on the message, the filter
loop fails (earlier raising or truthy filters just continue, and the first
falsy one returns). -/
theorem runFilters_false_of_block
    (filters : List (String × (Message → FilterOutcome))) (m : Message)
    (fid : String) (f : Message → FilterOutcome)
    (hmem : (fid, f) ∈ filters) (hb : f m = .block) :
    runFilters filters m = false := by
  induction filters with
  | nil => simp at hmem
  | cons kv rest ih =>
    obtain ⟨a, g⟩ := kv
    rcases List.mem_cons.mp hmem with h | h
    · obtain ⟨rfl, rfl⟩ := Prod.mk.injEq .. ▸ h
      simp [runFilters, hb]
    · cases hg : g m with
      | block => simp [runFilters, hg]
      | accept => simp only [runFilters, hg]; exact ih h
      | raise => simp only [runFilters, hg]; exact ih h

/-- C4: On an active bus with a registered source and a message passing
validation, if some registered filter returns false for the message then
`publish_data` returns false, the bus state (in particular the source's
`message_count` and the history) is unchanged, and nothing is delivered. -/
theorem filter_veto_rejects (bus : Bus) (sid dt : String) (d : TabData)
    (md : Option (List (String × String))) (now : Timestamp)
    (reg : TabRegistration) (fid : String) (f : Message → FilterOutcome)
    (hact : bus.is_active = true)
    (hreg : alookup bus.registered_tabs sid = some reg)
    (hval : (validate_data_message
      (create_data_message sid reg.tab_type dt d md now)).1 = true)
    (hmem : (fid, f) ∈ bus.data_filters)
    (hblock : f (create_data_message sid reg.tab_type dt d md now) = .block) :
    (publish_data bus sid dt d md now).ok = false ∧
    (publish_data bus sid dt d md now).bus = bus ∧
    (∀ i, Event.dataReceived i ∉ (publish_data bus sid dt d md now).events) ∧
    alookup (publish_data bus sid dt d md now).bus.registered_tabs sid = some reg ∧
    (publish_data bus sid dt d md now).bus.message_history = bus.message_history := by
  have hfil := runFilters_false_of_block bus.data_filters _ fid f hmem hblock
  have hv : ¬ (bus.enable_validation = true ∧ (validate_data_message
      (create_data_message sid reg.tab_type dt d md now)).1 = false) := by
    simp [hval]
  have h := publish_data_vetoed bus sid dt d md now reg hact hreg hv hfil
  rw [h]
  refine ⟨rfl, rfl, ?_, hreg, rfl⟩
  intro i
  cases he : bus.enable_validation <;> simp [he]

/-- Witness for C4: the always-false filter of `busVeto` vetoes a valid
publish. -/
theorem filter_veto_rejects_witness :
    (publish_data busVeto "a" "t" (TabData.str "x") none ts0).ok = false ∧
    (publish_data busVeto "a" "t" (TabData.str "x") none ts0).bus = busVeto := by
  have h := filter_veto_rejects busVeto "a" "t" (TabData.str "x") none ts0
    { tab_id := "a", tab_type := "spreadsheet", callback := none } "f1" filterBlocks
    rfl rfl rfl (List.mem_singleton_self _) rfl
  exact ⟨h.1, h.2.1⟩

/-! C9: a raising filter is caught and treated as passing -/

/-- The filter loop is insensitive to a filter that raises on the message:
the exception is caught and the loop continues with the remaining
filters. -/
theorem runFilters_ignores_raise
    (pre post : List (String × (Message → FilterOutcome)))
    (fid : String) (f : Message → FilterOutcome) (m : Message)
    (hraise : f m = .raise) :
    runFilters (pre ++ (fid, f) :: post) m = runFilters (pre ++ post) m := by
  induction pre with
  | nil => simp [runFilters, hraise]
  | cons kv rest ih =>
    obtain ⟨a, g⟩ := kv
    cases hg : g m with
    | block => simp [runFilters, hg]
    | accept =>
      simp only [List.cons_append, runFilters, hg]
      exact ih
    | raise =>
      simp only [List.cons_append, runFilters, hg]
      exact ih

/-- C9: If a registered filter raises on the (validated) message, the
exception is caught and the filter is treated as passing: the publish
behaves exactly as if that filter were absent — the same result, the same
registry, history and events — and in particular it can still return true
and deliver when the remaining filters pass. -/
theorem filter_exception_skipped (bus : Bus) (sid dt : String) (d : TabData)
    (md : Option (List (String × String))) (now : Timestamp)
    (reg : TabRegistration)
    (pre post : List (String × (Message → FilterOutcome)))
    (fid : String) (f : Message → FilterOutcome)
    (hreg : alookup bus.registered_tabs sid = some reg)
    (hraise : f (create_data_message sid reg.tab_type dt d md now) = .raise) :
    (publish_data { bus with data_filters := pre ++ (fid, f) :: post }
        sid dt d md now).ok =
      (publish_data { bus with data_filters := pre ++ post } sid dt d md now).ok ∧
    (publish_data { bus with data_filters := pre ++ (fid, f) :: post }
        sid dt d md now).bus.registered_tabs =
      (publish_data { bus with data_filters := pre ++ post }
        sid dt d md now).bus.registered_tabs ∧
    (publish_data { bus with data_filters := pre ++ (fid, f) :: post }
        sid dt d md now).bus.message_history =
      (publish_data { bus with data_filters := pre ++ post }
        sid dt d md now).bus.message_history ∧
    (publish_data { bus with data_filters := pre ++ (fid, f) :: post }
        sid dt d md now).events =
      (publish_data { bus with data_filters := pre ++ post } sid dt d md now).events ∧
    (bus.is_active = true →
      ¬ (bus.enable_validation = true ∧ (validate_data_message
        (create_data_message sid reg.tab_type dt d md now)).1 = false) →
      runFilters (pre ++ post)
        (create_data_message sid reg.tab_type dt d md now) = true →
      (publish_data { bus with data_filters := pre ++ (fid, f) :: post }
        sid dt d md now).ok = true) := by
  have hrf := runFilters_ignores_raise pre post fid f
    (create_data_message sid reg.tab_type dt d md now) hraise
  by_cases hact : bus.is_active = true
  · by_cases hval : bus.enable_validation = true ∧ (validate_data_message
      (create_data_message sid reg.tab_type dt d md now)).1 = false
    · have e1 := publish_data_invalid
        { bus with data_filters := pre ++ (fid, f) :: post }
        sid dt d md now reg hact hreg hval.1 hval.2
      have e2 := publish_data_invalid { bus with data_filters := pre ++ post }
        sid dt d md now reg hact hreg hval.1 hval.2
      rw [e1, e2]
      exact ⟨rfl, rfl, rfl, rfl, fun _ hv _ => absurd hval hv⟩
    · by_cases hfil : runFilters (pre ++ post)
        (create_data_message sid reg.tab_type dt d md now) = true
      · have e1 := publish_data_success
          { bus with data_filters := pre ++ (fid, f) :: post }
          sid dt d md now reg hact hreg hval (hrf.trans hfil)
        have e2 := publish_data_success { bus with data_filters := pre ++ post }
          sid dt d md now reg hact hreg hval hfil
        rw [e1, e2]
        exact ⟨rfl, rfl, rfl, rfl, fun _ _ _ => rfl⟩
      · have hfil' : runFilters (pre ++ post)
            (create_data_message sid reg.tab_type dt d md now) = false :=
          Bool.eq_false_iff.mpr hfil
        have e1 := publish_data_vetoed
          { bus with data_filters := pre ++ (fid, f) :: post }
          sid dt d md now reg hact hreg hval (hrf.trans hfil')
        have e2 := publish_data_vetoed { bus with data_filters := pre ++ post }
          sid dt d md now reg hact hreg hval hfil'
        rw [e1, e2]
        exact ⟨rfl, rfl, rfl, rfl, fun _ _ hv => absurd hfil' (by simp [hv])⟩
  · have hact' : bus.is_active = false := Bool.eq_false_iff.mpr hact
    have e1 := publish_data_inactive
      { bus with data_filters := pre ++ (fid, f) :: post } sid dt d md now hact'
    have e2 := publish_data_inactive { bus with data_filters := pre ++ post }
      sid dt d md now hact'
    rw [e1, e2]
    exact ⟨rfl, rfl, rfl, rfl, fun hv _ _ => absurd hv hact⟩

/-- Witness for C9 on `busRaisy`: the raising filter `"boom"` sits between
two accepting filters and the publish still returns true. -/
theorem filter_exception_skipped_witness :
    (publish_data busRaisy "a" "t" (TabData.str "x") none ts0).ok =
      (publish_data { busAB with data_filters :=
        [("ok1", filterAccepts), ("ok2", filterAccepts)] } "a" "t"
        (TabData.str "x") none ts0).ok ∧
    (publish_data busRaisy "a" "t" (TabData.str "x") none ts0).ok = true := by
  have h := filter_exception_skipped busAB "a" "t" (TabData.str "x") none ts0
    { tab_id := "a", tab_type := "spreadsheet", callback := none }
    [("ok1", filterAccepts)] [("ok2", filterAccepts)] "boom" filterRaises rfl rfl
  exact ⟨h.1, h.2.2.2.2 rfl (by decide) rfl⟩

/-! C1: exactly-once delivery in subscription-table order -/

/-- Every event of one routing iteration names that iteration's tab. -/
theorem mem_routeOne (regs : List (String × TabRegistration)) (msg : Message)
    (t : String) (s : List String) (e : Event) (he : e ∈ routeOne regs msg t s) :
    e = .dataReceived t ∨ e = .transmissionError t := by
  unfold routeOne at he
  split at he
  · simp at he
  · split at he
    · simp at he
    · split at he
      · simp at he
      · split at he
        · simp at he
        · split at he
          · split at he
            · simp at he; exact Or.inl he
            · simp at he; exact Or.inr he
          · simp at he; exact Or.inl he

/-- A routing iteration for the source tab emits nothing. -/
theorem routeOne_source (regs : List (String × TabRegistration)) (msg : Message)
    (s : List String) : routeOne regs msg msg.source_tab_id s = [] := by
  unfold routeOne
  simp

/-- A routing iteration for a tab other than `B` never delivers to `B`. -/
theorem routeOne_count_ne (regs : List (String × TabRegistration)) (msg : Message)
    (t : String) (s : List String) (B : String) (h : t ≠ B) :
    (routeOne regs msg t s).count (Event.dataReceived B) = 0 := by
  refine List.count_eq_zero.mpr (fun hmem => ?_)
  rcases mem_routeOne regs msg t s _ hmem with he | he
  · exact h (by injection he with h1; exact h1.symm)
  · exact Event.noConfusion he

/-- The routing iteration for a subscribed, registered, active recipient
whose delivery does not raise emits exactly one `data_received`. -/
theorem routeOne_delivers (regs : List (String × TabRegistration)) (msg : Message)
    (B : String) (s : List String) (regB : TabRegistration)
    (hne : B ≠ msg.source_tab_id) (hsub : msg.data_type ∈ s)
    (hreg : alookup regs B = some regB) (hact : regB.is_active = true)
    (hcb : cbThrows regB msg = false) :
    routeOne regs msg B s = [.dataReceived B] := by
  unfold routeOne
  cases hc : regB.callback with
  | none => simp [hne, hsub, hreg, hact, hc]
  | some cb =>
    cases hcb' : cb msg with
    | ok => simp [hne, hsub, hreg, hact, hc, hcb']
    | raise =>
      exfalso
      have hx : cbThrows regB msg = true := by
        simp [cbThrows, hc, hcb']
      rw [hx] at hcb
      exact Bool.noConfusion hcb

/-- Over entries whose keys avoid `B`, routing delivers nothing to `B`. -/
theorem routeEntries_count_zero (regs : List (String × TabRegistration))
    (msg : Message) (l : List (String × List String)) (B : String)
    (h : B ∉ l.map Prod.fst) :
    (routeEntries regs msg l).count (Event.dataReceived B) = 0 := by
  induction l with
  | nil => rfl
  | cons kv rest ih =>
    obtain ⟨k, s⟩ := kv
    simp only [List.map_cons, List.mem_cons] at h
    push_neg at h
    simp only [routeEntries, List.count_append]
    rw [routeOne_count_ne regs msg k s B (fun hk => h.1 hk.symm), ih h.2]

/-- Routing never delivers back to the source. -/
theorem routeEntries_count_source (regs : List (String × TabRegistration))
    (msg : Message) (l : List (String × List String)) :
    (routeEntries regs msg l).count (Event.dataReceived msg.source_tab_id) = 0 := by
  induction l with
  | nil => rfl
  | cons kv rest ih =>
    obtain ⟨k, s⟩ := kv
    simp only [routeEntries, List.count_append]
    rw [ih]
    by_cases hk : k = msg.source_tab_id
    · subst hk; rw [routeOne_source]; rfl
    · rw [routeOne_count_ne regs msg k s _ hk]

/-- With unique subscription keys, routing delivers exactly once to an
eligible recipient. -/
theorem routeEntries_count_one (regs : List (String × TabRegistration))
    (msg : Message) (l : List (String × List String)) (B : String)
    (subsB : List String) (regB : TabRegistration)
    (hnodup : (l.map Prod.fst).Nodup)
    (hlook : alookup l B = some subsB)
    (hne : B ≠ msg.source_tab_id) (hsub : msg.data_type ∈ subsB)
    (hreg : alookup regs B = some regB) (hact : regB.is_active = true)
    (hcb : cbThrows regB msg = false) :
    (routeEntries regs msg l).count (Event.dataReceived B) = 1 := by
  induction l with
  | nil => exact absurd hlook (by simp [alookup])
  | cons kv rest ih =>
    obtain ⟨k, s⟩ := kv
    simp only [List.map_cons, List.nodup_cons] at hnodup
    simp only [routeEntries, List.count_append]
    by_cases hk : k = B
    · subst hk
      have hs : s = subsB := by
        have := hlook
        unfold alookup at this
        rw [if_pos rfl] at this
        exact Option.some.injEq .. ▸ this
      subst hs
      rw [routeOne_delivers regs msg k s regB hne hsub hreg hact hcb]
      rw [routeEntries_count_zero regs msg rest k hnodup.1]
      simp
    · have hlook' : alookup rest B = some subsB := by
        have := hlook
        unfold alookup at this
        rwa [if_neg hk] at this
      rw [routeOne_count_ne regs msg k s B hk, ih hnodup.2 hlook']

/-- One routing iteration visits (delivers or reports) its tab exactly when
the `visits` predicate holds. -/
theorem routeOne_touched (regs : List (String × TabRegistration)) (msg : Message)
    (k : String) (s : List String) :
    (routeOne regs msg k s).filterMap touchedId =
      if visits regs msg (k, s) then [k] else [] := by
  unfold routeOne visits
  by_cases h1 : k = msg.source_tab_id
  · simp [h1]
  · by_cases h2 : msg.data_type ∈ s
    · cases hr : alookup regs k with
      | none => simp [h1, h2, hr]
      | some reg =>
        cases h4 : reg.is_active with
        | false => simp [h1, h2, hr, h4]
        | true =>
          cases hc : reg.callback with
          | none => simp [h1, h2, hr, h4, hc, touchedId]
          | some cb =>
            cases hcb : cb msg <;> simp [h1, h2, hr, h4, hc, hcb, touchedId]
    · simp [h1, h2]

/-- Recipients are visited in subscription-table order: the trace's touched
tabs are exactly the eligible entries' keys, in table order. -/
theorem routeEntries_touched (regs : List (String × TabRegistration))
    (msg : Message) (l : List (String × List String)) :
    (routeEntries regs msg l).filterMap touchedId =
      (l.filter (visits regs msg)).map Prod.fst := by
  induction l with
  | nil => rfl
  | cons kv rest ih =>
    obtain ⟨k, s⟩ := kv
    simp only [routeEntries, List.filterMap_append, ih, List.filter_cons]
    rw [routeOne_touched]
    by_cases hv : visits regs msg (k, s) = true
    · simp [hv]
    · simp [Bool.eq_false_iff.mpr hv]

/-- C1: On an active bus, for distinct registered tabs A and B with B
subscribed to the published data type, active, and with a delivery that does
not raise, a successful `publish_data` from A delivers exactly one message
to B, none to A itself, and the routing loop visits recipients in
subscription-table (registration) order. -/
theorem publish_delivers_exactly_once (bus : Bus) (A B T : String) (d : TabData)
    (md : Option (List (String × String))) (now : Timestamp)
    (regA regB : TabRegistration) (subsB : List String)
    (hnodup : (bus.subscription_map.map Prod.fst).Nodup)
    (hBA : B ≠ A)
    (hregA : alookup bus.registered_tabs A = some regA)
    (hregB : alookup bus.registered_tabs B = some regB)
    (hactB : regB.is_active = true)
    (hsubB : alookup bus.subscription_map B = some subsB)
    (hT : T ∈ subsB)
    (hcb : cbThrows regB (create_data_message A regA.tab_type T d md now) = false)
    (hok : (publish_data bus A T d md now).ok = true) :
    (publish_data bus A T d md now).events.count (Event.dataReceived B) = 1 ∧
    (publish_data bus A T d md now).events.count (Event.dataReceived A) = 0 ∧
    (publish_data bus A T d md now).events.filterMap touchedId =
      (bus.subscription_map.filter
        (visits (alistInsert bus.registered_tabs A
            { regA with message_count := regA.message_count + 1,
                        last_activity := some now })
          (create_data_message A regA.tab_type T d md now))).map Prod.fst := by
  by_cases hact : bus.is_active = true
  case neg =>
    rw [publish_data_inactive bus A T d md now (Bool.eq_false_iff.mpr hact)] at hok
    exact absurd hok (by simp)
  by_cases hval : bus.enable_validation = true ∧ (validate_data_message
      (create_data_message A regA.tab_type T d md now)).1 = false
  case pos =>
    rw [publish_data_invalid bus A T d md now regA hact hregA hval.1 hval.2] at hok
    exact absurd hok (by simp)
  by_cases hfil : runFilters bus.data_filters
      (create_data_message A regA.tab_type T d md now) = true
  case neg =>
    rw [publish_data_vetoed bus A T d md now regA hact hregA hval
      (Bool.eq_false_iff.mpr hfil)] at hok
    exact absurd hok (by simp)
  have heq := publish_data_success bus A T d md now regA hact hregA hval hfil
  rw [heq]
  have hsrc : (create_data_message A regA.tab_type T d md now).source_tab_id = A := rfl
  have hdt : (create_data_message A regA.tab_type T d md now).data_type = T := rfl
  have hts : (create_data_message A regA.tab_type T d md now).timestamp = now := rfl
  have hregB' : alookup (alistInsert bus.registered_tabs A
      { regA with message_count := regA.message_count + 1,
                  last_activity := some now }) B = some regB := by
    rw [alookup_insert_ne bus.registered_tabs A B _ hBA]
    exact hregB
  refine ⟨?_, ?_, ?_⟩
  · simp only [List.count_append]
    have h1 : (if bus.enable_validation then
        [Event.messageValidated (validate_data_message
          (create_data_message A regA.tab_type T d md now)).1]
      else ([] : List Event)).count (Event.dataReceived B) = 0 := by
      cases bus.enable_validation <;> simp
    rw [h1]
    simp only [route, hts]
    rw [routeEntries_count_one _ _ bus.subscription_map B subsB regB hnodup hsubB
      (hsrc ▸ hBA) (hdt ▸ hT) hregB' hactB hcb]
    simp
  · simp only [List.count_append]
    have h1 : (if bus.enable_validation then
        [Event.messageValidated (validate_data_message
          (create_data_message A regA.tab_type T d md now)).1]
      else ([] : List Event)).count (Event.dataReceived A) = 0 := by
      cases bus.enable_validation <;> simp
    rw [h1]
    simp only [route, hts]
    have h2 := routeEntries_count_source (alistInsert bus.registered_tabs A
      { regA with message_count := regA.message_count + 1,
                  last_activity := some now })
      (create_data_message A regA.tab_type T d md now) bus.subscription_map
    rw [hsrc] at h2
    rw [h2]
    simp
  · simp only [List.filterMap_append]
    have h1 : (if bus.enable_validation then
        [Event.messageValidated (validate_data_message
          (create_data_message A regA.tab_type T d md now)).1]
      else ([] : List Event)).filterMap touchedId = [] := by
      cases bus.enable_validation <;> simp [touchedId]
    rw [h1]
    simp only [route, hts]
    rw [routeEntries_touched]
    simp [touchedId]

/-- Witness for C1 on `busAB`: publishing `"t"` from `"a"` reaches `"b"`
exactly once and `"a"` not at all. -/
theorem publish_delivers_exactly_once_witness :
    (publish_data busAB "a" "t" (TabData.str "x") none ts0).ok = true ∧
    (publish_data busAB "a" "t" (TabData.str "x") none ts0).events.count
      (Event.dataReceived "b") = 1 ∧
    (publish_data busAB "a" "t" (TabData.str "x") none ts0).events.count
      (Event.dataReceived "a") = 0 := by
  have h := publish_delivers_exactly_once busAB "a" "b" "t" (TabData.str "x") none ts0
    { tab_id := "a", tab_type := "spreadsheet", callback := none }
    { tab_id := "b", tab_type := "fitting", callback := some cbAccepts }
    ["t"] (by decide) (by decide) rfl rfl rfl rfl (by decide) rfl rfl
  exact ⟨rfl, h.1, h.2.1⟩

/-! C6: bounded FIFO history -/

theorem take_append_take {α : Type} (N : Nat) (a b : List α) :
    (a ++ b.take N).take N = (a ++ b).take N := by
  rw [List.take_append_eq_append_take, List.take_append_eq_append_take,
    List.take_take, Nat.min_eq_left (Nat.sub_le _ _)]

/-- Keeping only the last `N` elements before appending does not change the
last `N` elements of the concatenation. -/
theorem rtake_append_rtake {α : Type} (N : Nat) (l r : List α) :
    (l.rtake N ++ r).rtake N = (l ++ r).rtake N := by
  simp only [List.rtake_eq_reverse_take_reverse, List.reverse_append,
    List.reverse_reverse]
  exact congrArg List.reverse (take_append_take N r.reverse l.reverse)

theorem rtake_of_le {α : Type} (l : List α) (N : Nat) (h : l.length ≤ N) :
    l.rtake N = l := by
  show l.drop (l.length - N) = l
  rw [Nat.sub_eq_zero_of_le h, List.drop_zero]

theorem length_rtake_le {α : Type} (l : List α) (N : Nat) :
    (l.rtake N).length ≤ N := by
  show (l.drop (l.length - N)).length ≤ N
  rw [List.length_drop]
  omega

theorem length_rtake_of_le {α : Type} (l : List α) (N : Nat) (h : N ≤ l.length) :
    (l.rtake N).length = N := by
  show (l.drop (l.length - N)).length = N
  rw [List.length_drop]
  omega

theorem rtake_sublist {α : Type} (l : List α) (N : Nat) :
    List.Sublist (l.rtake N) l :=
  List.drop_sublist _ _

/-- A `publish_data` call that returned false left the bus untouched. -/
theorem publishStep_not_ok (bus : Bus) (r : PubReq)
    (h : (publishStep bus r).ok = false) : (publishStep bus r).bus = bus := by
  unfold publishStep at h ⊢
  by_cases hact : bus.is_active = true
  · cases hreg : alookup bus.registered_tabs r.source_tab_id with
    | none =>
      rw [publish_data_unregistered bus _ _ _ _ _ hreg]
    | some reg =>
      by_cases hval : bus.enable_validation = true ∧ (validate_data_message
          (create_data_message r.source_tab_id reg.tab_type r.data_type r.data
            r.metadata r.now)).1 = false
      · rw [publish_data_invalid bus _ _ _ _ _ reg hact hreg hval.1 hval.2]
      · by_cases hfil : runFilters bus.data_filters
            (create_data_message r.source_tab_id reg.tab_type r.data_type r.data
              r.metadata r.now) = true
        · rw [publish_data_success bus _ _ _ _ _ reg hact hreg hval hfil] at h
          exact absurd h (by simp)
        · rw [publish_data_vetoed bus _ _ _ _ _ reg hact hreg hval
            (Bool.eq_false_iff.mpr hfil)]
  · rw [publish_data_inactive bus _ _ _ _ _ (Bool.eq_false_iff.mpr hact)]

/-- A `publish_data` call never changes the configured history capacity. -/
theorem publishStep_max (bus : Bus) (r : PubReq) :
    (publishStep bus r).bus.max_message_history = bus.max_message_history := by
  by_cases hok : (publishStep bus r).ok = true
  · unfold publishStep at hok ⊢
    by_cases hact : bus.is_active = true
    · cases hreg : alookup bus.registered_tabs r.source_tab_id with
      | none =>
        rw [publish_data_unregistered bus _ _ _ _ _ hreg]
      | some reg =>
        by_cases hval : bus.enable_validation = true ∧ (validate_data_message
            (create_data_message r.source_tab_id reg.tab_type r.data_type r.data
              r.metadata r.now)).1 = false
        · rw [publish_data_invalid bus _ _ _ _ _ reg hact hreg hval.1 hval.2]
        · by_cases hfil : runFilters bus.data_filters
              (create_data_message r.source_tab_id reg.tab_type r.data_type r.data
                r.metadata r.now) = true
          · rw [publish_data_success bus _ _ _ _ _ reg hact hreg hval hfil]
          · rw [publish_data_vetoed bus _ _ _ _ _ reg hact hreg hval
              (Bool.eq_false_iff.mpr hfil)]
    · rw [publish_data_inactive bus _ _ _ _ _ (Bool.eq_false_iff.mpr hact)]
  · rw [publishStep_not_ok bus r (Bool.eq_false_iff.mpr hok)]

/-- A successful publish on a source registered as `reg` records exactly
the last `max_message_history` of the old history plus the new message. -/
theorem publish_ok_history (bus : Bus) (r : PubReq)
    (hmax : 1 ≤ bus.max_message_history)
    (hlen : bus.message_history.length ≤ bus.max_message_history)
    (hok : (publishStep bus r).ok = true) :
    ∃ reg, alookup bus.registered_tabs r.source_tab_id = some reg ∧
      (publishStep bus r).bus.message_history =
        (bus.message_history ++ [create_data_message r.source_tab_id reg.tab_type
          r.data_type r.data r.metadata r.now]).rtake bus.max_message_history := by
  unfold publishStep at hok ⊢
  by_cases hact : bus.is_active = true
  case neg =>
    rw [publish_data_inactive bus _ _ _ _ _ (Bool.eq_false_iff.mpr hact)] at hok
    exact absurd hok (by simp)
  cases hreg : alookup bus.registered_tabs r.source_tab_id with
  | none =>
    rw [publish_data_unregistered bus _ _ _ _ _ hreg] at hok
    exact absurd hok (by simp)
  | some reg =>
    by_cases hval : bus.enable_validation = true ∧ (validate_data_message
        (create_data_message r.source_tab_id reg.tab_type r.data_type r.data
          r.metadata r.now)).1 = false
    case pos =>
      rw [publish_data_invalid bus _ _ _ _ _ reg hact hreg hval.1 hval.2] at hok
      exact absurd hok (by simp)
    by_cases hfil : runFilters bus.data_filters
        (create_data_message r.source_tab_id reg.tab_type r.data_type r.data
          r.metadata r.now) = true
    case neg =>
      rw [publish_data_vetoed bus _ _ _ _ _ reg hact hreg hval
        (Bool.eq_false_iff.mpr hfil)] at hok
      exact absurd hok (by simp)
    refine ⟨reg, rfl, ?_⟩
    rw [publish_data_success bus _ _ _ _ _ reg hact hreg hval hfil]
    by_cases hfull : bus.message_history.length ≥ bus.max_message_history
    · have hlen' : bus.message_history.length = bus.max_message_history :=
        Nat.le_antisymm hlen hfull
      rw [if_pos hfull]
      show _ = (bus.message_history ++ [_]).drop
        ((bus.message_history ++ [_]).length - bus.max_message_history)
      rw [List.length_append]
      simp only [List.length_singleton]
      rw [hlen']
      rw [Nat.add_sub_cancel_left]
      rw [List.drop_append_of_le_length (by omega), List.drop_one]
    · rw [if_neg hfull]
      rw [rtake_of_le _ _ (by rw [List.length_append]; simp; omega)]

/-- The history after a run of publishes is the last `max_message_history`
of the initial history followed by the successfully published messages. -/
theorem publishRun_history (bus : Bus) (reqs : List PubReq)
    (hmax : 1 ≤ bus.max_message_history)
    (hlen : bus.message_history.length ≤ bus.max_message_history) :
    (publishRun bus reqs).max_message_history = bus.max_message_history ∧
    (publishRun bus reqs).message_history =
      (bus.message_history ++ publishedMsgs bus reqs).rtake bus.max_message_history := by
  induction reqs generalizing bus with
  | nil =>
    refine ⟨rfl, ?_⟩
    simp only [publishRun, publishedMsgs, List.append_nil]
    exact (rtake_of_le _ _ hlen).symm
  | cons r rest ih =>
    by_cases hok : (publishStep bus r).ok = true
    · obtain ⟨reg, hreg, hh⟩ := publish_ok_history bus r hmax hlen hok
      have hmax' := publishStep_max bus r
      have hlen' : (publishStep bus r).bus.message_history.length ≤
          (publishStep bus r).bus.max_message_history := by
        rw [hmax', hh]
        exact length_rtake_le _ _
      have ihh := ih (publishStep bus r).bus (by rw [hmax']; exact hmax) hlen'
      have hpm : publishedMsgs bus (r :: rest) =
          create_data_message r.source_tab_id reg.tab_type r.data_type r.data
            r.metadata r.now :: publishedMsgs (publishStep bus r).bus rest := by
        simp [publishedMsgs, hok, hreg]
      constructor
      · show (publishRun (publishStep bus r).bus rest).max_message_history = _
        rw [ihh.1, hmax']
      · show (publishRun (publishStep bus r).bus rest).message_history = _
        rw [ihh.2, hmax', hh, hpm, rtake_append_rtake]
        rw [List.append_assoc]
        rfl
    · have hbus := publishStep_not_ok bus r (Bool.eq_false_iff.mpr hok)
      have hpm : publishedMsgs bus (r :: rest) =
          publishedMsgs (publishStep bus r).bus rest := by
        simp [publishedMsgs, hok]
      have ihh := ih bus hmax hlen
      constructor
      · show (publishRun (publishStep bus r).bus rest).max_message_history = _
        rw [hbus]
        exact ihh.1
      · show (publishRun (publishStep bus r).bus rest).message_history = _
        rw [hpm, hbus]
        exact ihh.2

/-- All-successful runs publish one message per request. -/
theorem publishedMsgs_length (bus : Bus) (reqs : List PubReq)
    (hall : ∀ b ∈ publishOks bus reqs, b = true) :
    (publishedMsgs bus reqs).length = reqs.length := by
  induction reqs generalizing bus with
  | nil => rfl
  | cons r rest ih =>
    have hok : (publishStep bus r).ok = true := hall _ (by simp [publishOks])
    have hex : ∃ reg, alookup bus.registered_tabs r.source_tab_id = some reg := by
      cases hx : alookup bus.registered_tabs r.source_tab_id with
      | none =>
        have := publish_data_unregistered bus r.source_tab_id r.data_type r.data
          r.metadata r.now hx
        unfold publishStep at hok
        rw [this] at hok
        exact absurd hok (by simp)
      | some reg => exact ⟨reg, rfl⟩
    obtain ⟨reg, hreg⟩ := hex
    have hall' : ∀ b ∈ publishOks (publishStep bus r).bus rest, b = true :=
      fun b hb => hall b (by simp [publishOks, hb])
    simp [publishedMsgs, hok, hreg, ih _ hall']

/-- C6: Starting from a bus with empty history and capacity `N ≥ 1`,
after `K > N` successful publishes the history length never exceeded `N` at
any prefix of the run, `get_message_history()` returns exactly the last `N`
published messages in publish order (so with no duplicates whenever the
published messages are distinct), and a successful publish at capacity
evicts exactly the oldest entry. -/
theorem history_bound (bus : Bus) (reqs : List PubReq) (N : Nat)
    (hN : bus.max_message_history = N)
    (hpos : 1 ≤ N)
    (hempty : bus.message_history = [])
    (hall : ∀ b ∈ publishOks bus reqs, b = true)
    (hK : N < reqs.length) :
    (∀ i, (publishRun bus (reqs.take i)).message_history.length ≤ N) ∧
    get_message_history (publishRun bus reqs) none =
      (publishedMsgs bus reqs).rtake N ∧
    ((publishedMsgs bus reqs).rtake N).length = N ∧
    ((publishedMsgs bus reqs).Nodup →
      (get_message_history (publishRun bus reqs) none).Nodup) ∧
    (∀ (b : Bus) (r : PubReq) (reg : TabRegistration),
      b.max_message_history = N →
      b.message_history.length = N →
      alookup b.registered_tabs r.source_tab_id = some reg →
      (publishStep b r).ok = true →
      (publishStep b r).bus.message_history =
        b.message_history.tail ++ [create_data_message r.source_tab_id reg.tab_type
          r.data_type r.data r.metadata r.now]) := by
  have hmax : 1 ≤ bus.max_message_history := by rw [hN]; exact hpos
  have hlen : bus.message_history.length ≤ bus.max_message_history := by
    rw [hempty]; exact Nat.zero_le _
  have hrun := publishRun_history bus reqs hmax hlen
  have hhist : (publishRun bus reqs).message_history =
      (publishedMsgs bus reqs).rtake N := by
    rw [hrun.2, hempty, List.nil_append, hN]
  refine ⟨?_, ?_, ?_, ?_, ?_⟩
  · intro i
    have h := publishRun_history bus (reqs.take i) hmax hlen
    rw [h.2, hN]
    exact length_rtake_le _ _
  · show (publishRun bus reqs).message_history = _
    exact hhist
  · have hlenK := publishedMsgs_length bus reqs hall
    exact length_rtake_of_le _ _ (by omega)
  · intro hnd
    show ((publishRun bus reqs).message_history).Nodup
    rw [hhist]
    exact (rtake_sublist _ _).nodup hnd
  · intro b r reg hbN hblen hbreg hbok
    have hmaxb : 1 ≤ b.max_message_history := by rw [hbN]; exact hpos
    have hlenb : b.message_history.length ≤ b.max_message_history := by
      rw [hbN, hblen]
    obtain ⟨reg', hreg', hh⟩ := publish_ok_history b r hmaxb hlenb hbok
    rw [hbreg] at hreg'
    have hregeq : reg' = reg := by injection hreg' with h'; exact h'.symm
    subst hregeq
    rw [hh]
    show (b.message_history ++ [_]).drop
      ((b.message_history ++ [_]).length - b.max_message_history) = _
    rw [List.length_append, List.length_singleton, hbN, hblen,
      Nat.add_sub_cancel_left,
      List.drop_append_of_le_length (by rw [hblen]; omega), List.drop_one]

/-- Witness for C6 on `busHist` (capacity 2) after three successful
publishes. -/
theorem history_bound_witness :
    ((publishedMsgs busHist reqsHist).rtake 2).length = 2 ∧
    get_message_history (publishRun busHist reqsHist) none =
      (publishedMsgs busHist reqsHist).rtake 2 := by
  have h := history_bound busHist reqsHist 2 rfl (by decide) rfl
    (by decide) (by decide)
  exact ⟨h.2.2.1, h.2.1⟩

/-! C2: the Home-tab invariant -/

theorem qtInsertTab_perm (ts : List Tab) (i : Nat) (t : Tab) :
    (qtInsertTab ts i t).Perm (t :: ts) := by
  unfold qtInsertTab
  refine List.Perm.trans List.perm_middle ?_
  rw [List.take_append_drop]

theorem qtInsertTab_head (ts : List Tab) (i : Nat) (t : Tab) (h : 1 ≤ i)
    (hne : ts ≠ []) : (qtInsertTab ts i t).head? = ts.head? := by
  unfold qtInsertTab
  cases ts with
  | nil => exact absurd rfl hne
  | cons a rest =>
    obtain ⟨k, hk⟩ : ∃ k, min i (a :: rest).length = k + 1 := by
      have h1 : 1 ≤ min i (a :: rest).length := le_min h (by simp)
      exact ⟨_, (Nat.succ_pred_eq_of_pos h1).symm⟩
    rw [hk, List.take_succ_cons]
    rfl

theorem reorder_tabs_perm (ts : List Tab) (f t : Nat) :
    (reorder_tabs ts f t).Perm ts := by
  unfold reorder_tabs
  by_cases hg : f = t ∨ f = 0 ∨ t = 0
  · rw [if_pos hg]
  · rw [if_neg hg]
    cases hget : ts.get? f with
    | none => exact List.Perm.refl ts
    | some w =>
      obtain ⟨hf, hgw⟩ := List.get?_eq_some.mp hget
      refine (qtInsertTab_perm _ _ _).trans ?_
      have hdecomp : ts.take f ++ w :: ts.drop (f + 1) = ts := by
        rw [← hgw, List.get_cons_drop, List.take_append_drop]
      have h2 : List.Perm (w :: (ts.take f ++ ts.drop (f + 1)))
          (ts.take f ++ w :: ts.drop (f + 1)) := List.perm_middle.symm
      rw [List.eraseIdx_eq_take_drop_succ]
      conv_rhs => rw [← hdecomp]
      exact h2

theorem reorder_tabs_head (ts : List Tab) (f t : Nat) :
    (reorder_tabs ts f t).head? = ts.head? := by
  unfold reorder_tabs
  by_cases hg : f = t ∨ f = 0 ∨ t = 0
  · rw [if_pos hg]
  · rw [if_neg hg]
    push_neg at hg
    cases hget : ts.get? f with
    | none => rfl
    | some w =>
      obtain ⟨hf, _⟩ := List.get?_eq_some.mp hget
      cases ts with
      | nil => simp at hf
      | cons a rest =>
        cases f with
        | zero => exact absurd rfl hg.2.1
        | succ k =>
          have ht1 : 1 ≤ (if t > k + 1 then t - 1 else t) := by
            have := hg.2.2
            split <;> omega
          have herase : (a :: rest).eraseIdx (k + 1) = a :: rest.eraseIdx k := rfl
          rw [herase, qtInsertTab_head _ _ _ ht1 (by simp)]
          rfl

/-- Transport of "Home first, Home only first" along a head-preserving
permutation. -/
theorem head_tail_home {r' base : List Tab}
    (hperm : r'.Perm base) (hheadr : r'.head? = base.head?)
    (hhead : base.head? = some homeTab) (htail : homeTab ∉ base.tail) :
    r'.head? = some homeTab ∧ homeTab ∉ r'.tail := by
  cases base with
  | nil => simp at hhead
  | cons a tl =>
    cases r' with
    | nil => rw [hhead] at hheadr; simp at hheadr
    | cons b tl' =>
      have ha : a = homeTab := by simpa using hhead
      have hb : b = homeTab := by
        rw [hhead] at hheadr
        simpa using hheadr
      refine ⟨by simp [hb], ?_⟩
      have hc := hperm.count_eq homeTab
      have htl : tl.count homeTab = 0 := List.count_eq_zero_of_not_mem htail
      simp [List.count_cons, ha, hb, htl] at hc
      show homeTab ∉ tl'
      exact List.count_eq_zero.mp (by omega)

theorem applyOp_reorder_main (s : Shell) (f t : Nat) :
    applyOp s (.reorder .main f t) = { s with main := reorder_tabs s.main f t } := by
  simp [applyOp, Shell.strip, Shell.setStrip]

theorem applyOp_reorder_win_none (s : Shell) (k f t : Nat)
    (hk : s.detached.get? k = none) : applyOp s (.reorder (.win k) f t) = s := by
  have hk2 : s.detached[k]? = none := by rw [← List.get?_eq_getElem?]; exact hk
  simp [applyOp, Shell.strip, hk2]

theorem applyOp_reorder_win_some (s : Shell) (k f t : Nat) (w0 : List Tab)
    (hk : s.detached.get? k = some w0) :
    applyOp s (.reorder (.win k) f t) =
      { s with detached := s.detached.set k (reorder_tabs w0 f t) } := by
  have hk2 : s.detached[k]? = some w0 := by rw [← List.get?_eq_getElem?]; exact hk
  simp [applyOp, Shell.strip, Shell.setStrip, hk2]

theorem applyOp_detach_main_guard (s : Shell) (i : Nat)
    (h : s.main.length ≤ 1 ∨ i = 0) : applyOp s (.detach .main i) = s := by
  simp [applyOp, Shell.strip, detach_split, h]

theorem applyOp_detach_main_none (s : Shell) (i : Nat)
    (h : ¬ (s.main.length ≤ 1 ∨ i = 0)) (hget : s.main.get? i = none) :
    applyOp s (.detach .main i) = s := by
  have hget2 : s.main[i]? = none := by rw [← List.get?_eq_getElem?]; exact hget
  simp [applyOp, Shell.strip, detach_split, h, hget2]

theorem applyOp_detach_main_some (s : Shell) (i : Nat) (w : Tab)
    (h : ¬ (s.main.length ≤ 1 ∨ i = 0)) (hget : s.main.get? i = some w) :
    applyOp s (.detach .main i) =
      { s with main := s.main.eraseIdx i, detached := s.detached ++ [[w]] } := by
  have hget2 : s.main[i]? = some w := by rw [← List.get?_eq_getElem?]; exact hget
  simp [applyOp, Shell.strip, Shell.setStrip, detach_split, h, hget2]

theorem applyOp_detach_win_none (s : Shell) (k i : Nat)
    (hk : s.detached.get? k = none) : applyOp s (.detach (.win k) i) = s := by
  have hk2 : s.detached[k]? = none := by rw [← List.get?_eq_getElem?]; exact hk
  simp [applyOp, Shell.strip, hk2]

theorem applyOp_detach_win_guard (s : Shell) (k i : Nat) (w0 : List Tab)
    (hk : s.detached.get? k = some w0) (h : w0.length ≤ 1 ∨ i = 0) :
    applyOp s (.detach (.win k) i) = s := by
  have hk2 : s.detached[k]? = some w0 := by rw [← List.get?_eq_getElem?]; exact hk
  simp [applyOp, Shell.strip, detach_split, hk2, h]

theorem applyOp_detach_win_nget (s : Shell) (k i : Nat) (w0 : List Tab)
    (hk : s.detached.get? k = some w0) (h : ¬ (w0.length ≤ 1 ∨ i = 0))
    (hget : w0.get? i = none) : applyOp s (.detach (.win k) i) = s := by
  have hk2 : s.detached[k]? = some w0 := by rw [← List.get?_eq_getElem?]; exact hk
  have hget2 : w0[i]? = none := by rw [← List.get?_eq_getElem?]; exact hget
  simp [applyOp, Shell.strip, detach_split, hk2, h, hget2]

theorem applyOp_detach_win_some (s : Shell) (k i : Nat) (w0 : List Tab) (w : Tab)
    (hk : s.detached.get? k = some w0) (h : ¬ (w0.length ≤ 1 ∨ i = 0))
    (hget : w0.get? i = some w) :
    applyOp s (.detach (.win k) i) =
      { s with detached := s.detached.set k (w0.eraseIdx i) ++ [[w]] } := by
  have hk2 : s.detached[k]? = some w0 := by rw [← List.get?_eq_getElem?]; exact hk
  have hget2 : w0[i]? = some w := by rw [← List.get?_eq_getElem?]; exact hget
  simp [applyOp, Shell.strip, Shell.setStrip, detach_split, hk2, h, hget2]

/-- A reorder or detach step preserves the Home-tab invariant. -/
theorem applyOp_preserves_home (s : Shell) (op : TabOp)
    (hinv : HomeInv s) (hop : op.isCrossDrop = false) :
    HomeInv (applyOp s op) := by
  obtain ⟨hhead, htail, hdet⟩ := hinv
  cases op with
  | crossDrop src si tgt tb ins => simp [TabOp.isCrossDrop] at hop
  | reorder r f t =>
    cases r with
    | main =>
      rw [applyOp_reorder_main]
      have hmain := head_tail_home (reorder_tabs_perm s.main f t)
        (reorder_tabs_head s.main f t) hhead htail
      exact ⟨hmain.1, hmain.2, hdet⟩
    | win k =>
      cases hk : s.detached.get? k with
      | none => rw [applyOp_reorder_win_none s k f t hk]; exact ⟨hhead, htail, hdet⟩
      | some w0 =>
        rw [applyOp_reorder_win_some s k f t w0 hk]
        refine ⟨hhead, htail, ?_⟩
        intro w' hw'
        rcases List.mem_or_eq_of_mem_set hw' with hmem | rfl
        · exact hdet w' hmem
        · intro hhome
          exact hdet w0 (List.get?_mem hk)
            (((reorder_tabs_perm w0 f t).mem_iff).mp hhome)
  | detach r i =>
    cases r with
    | main =>
      by_cases hguard : s.main.length ≤ 1 ∨ i = 0
      · rw [applyOp_detach_main_guard s i hguard]; exact ⟨hhead, htail, hdet⟩
      · cases hget : s.main.get? i with
        | none =>
          rw [applyOp_detach_main_none s i hguard hget]; exact ⟨hhead, htail, hdet⟩
        | some w =>
          rw [applyOp_detach_main_some s i w hguard hget]
          push_neg at hguard
          cases hmain : s.main with
          | nil => rw [hmain] at hget; simp [List.get?] at hget
          | cons a tl =>
            rw [hmain] at hget htail hhead
            cases i with
            | zero => exact absurd rfl hguard.2
            | succ k =>
              have hw : w ∈ tl := List.get?_mem (show tl.get? k = some w from hget)
              refine ⟨?_, ?_, ?_⟩
              · show ((a :: tl).eraseIdx (k + 1)).head? = some homeTab
                exact hhead
              · show homeTab ∉ ((a :: tl).eraseIdx (k + 1)).tail
                intro hmem
                exact htail ((List.eraseIdx_sublist tl k).mem hmem)
              · intro w' hw'
                rcases List.mem_append.mp hw' with hmem | hmem
                · exact hdet w' hmem
                · have hw1 : w' = [w] := by simpa using hmem
                  subst hw1
                  intro hhome
                  have hww : homeTab = w := by simpa using hhome
                  exact htail (hww ▸ hw)
    | win k =>
      cases hk : s.detached.get? k with
      | none => rw [applyOp_detach_win_none s k i hk]; exact ⟨hhead, htail, hdet⟩
      | some w0 =>
        have hw0 : homeTab ∉ w0 := hdet w0 (List.get?_mem hk)
        by_cases hguard : w0.length ≤ 1 ∨ i = 0
        · rw [applyOp_detach_win_guard s k i w0 hk hguard]
          exact ⟨hhead, htail, hdet⟩
        · cases hget : w0.get? i with
          | none =>
            rw [applyOp_detach_win_nget s k i w0 hk hguard hget]
            exact ⟨hhead, htail, hdet⟩
          | some w =>
            rw [applyOp_detach_win_some s k i w0 w hk hguard hget]
            have hw : w ∈ w0 := List.get?_mem hget
            refine ⟨hhead, htail, ?_⟩
            intro w' hw'
            rcases List.mem_append.mp hw' with hmem | hmem
            · rcases List.mem_or_eq_of_mem_set hmem with hmem2 | rfl
              · exact hdet w' hmem2
              · intro hhome
                exact hw0 ((List.eraseIdx_sublist w0 i).mem hhome)
            · have hw1 : w' = [w] := by simpa using hmem
              subst hw1
              intro hhome
              have hww : homeTab = w := by simpa using hhome
              exact hw0 (hww ▸ hw)

/-- C2 amended: For every sequence of reorder and detach operations
starting from a state satisfying the Home-tab invariant, the tab at
main-window index 0 remains the Home tab and the Home tab is never
contained in any detached window. (Cross-window drops are excluded: see the
counterexample.) -/
theorem home_invariance (s : Shell) (ops : List TabOp)
    (hinv : HomeInv s) (hops : ∀ op ∈ ops, op.isCrossDrop = false) :
    HomeInv (runOps s ops) := by
  induction ops generalizing s with
  | nil => exact hinv
  | cons op rest ih =>
    exact ih (applyOp s op)
      (applyOp_preserves_home s op hinv (hops op (by simp)))
      (fun o ho => hops o (by simp [ho]))

/-- Witness for the amended C2: a detach followed by a reorder on
`exShell`. -/
theorem home_invariance_witness :
    HomeInv exShell ∧ (∀ op ∈ exOpsSafe, op.isCrossDrop = false) ∧
    HomeInv (runOps exShell exOpsSafe) :=
  ⟨by decide, by decide, home_invariance exShell exOpsSafe (by decide) (by decide)⟩

/-- C2, counterexample to the claim as stated: From main window
`[Home, 1, 2]`, detaching tab 1 and cross-dropping tab 2 into the detached
window and back onto the main tab bar at insertion index 0 leaves tab 2 at
main-window index 0, displacing the Home tab. -/
theorem home_invariance_counterexample :
    HomeInv exShell ∧ ¬ HomeInv (runOps exShell exOps) := by
  constructor
  · decide
  · decide

/-! C3: the bare-array legacy session is never loaded -/

/-- C3 fails on the code: for a session file holding a bare array, the
version probe `session_data.get(...)` raises on the Python list before the
legacy loader is ever reached; `load_session` catches it, returns `False`,
and adds no tab. The legacy loader itself, applied to the list of tab
states its signature declares, would load every non-home entry — the
claim's behaviour. -/
theorem legacy_array_session_ignored :
    load_session "1.0.0" [NTab.home] (.arr [legacyEntry]) = (false, [NTab.home]) ∧
    load_legacy_session_list [NTab.home] [legacyEntry] =
      (true, [NTab.home, NTab.created legacyEntry]) := by
  constructor
  · rfl
  · rfl

end AnaFis
